import Mathlib

/-!
A verification development for the ingestion pipeline in
`ml_app/app/ingest/import_merge.py`: the importer (`import_gcs_data`), the
merger (`merge_data`) and the exporter (`export_data_gcs`), embedded shallowly.

Tables (pandas `DataFrame`s) are embedded as a list of column names together
with a list of rows, each row a list of cell values.  The pandas operations the
code uses — `merge(..., how='left')`, `drop_duplicates`, `to_datetime`,
`to_csv` — are embedded by executable functions that follow pandas semantics on
the shapes of data the pipeline handles: a left merge emits, for each left row,
one output row per key match (or one null-padded row when there is no match),
suffixing overlapping non-key column names with `_x` / `_y`; key lookups that
fail (a missing column, pandas `KeyError`) and unparseable date text (pandas
`ValueError`) are modelled by `Option` failure, as is the `NameError` raised
by `merge_data` when an expected logical dataframe name is absent from its
input list.  Cloud and local I/O are modelled by explicit read functions and
write logs.
-/

/-- A cell value: text, an integer, a parsed date (encoded as
`y * 10000 + m * 100 + d`), or a null (pandas `NaN` / `NaT`). -/
inductive Value where
  | vStr (s : String)
  | vInt (n : Int)
  | vDate (n : Nat)
  | vNull
  deriving DecidableEq, Repr

/-- A dataframe: column names and rows of cell values. -/
structure Table where
  cols : List String
  rows : List (List Value)
  deriving DecidableEq, Repr

/-- The output record of `import_gcs_data`: `dict(df_name=df_name, df=df)`. -/
structure NamedDf where
  df_name : String
  df : Table
  deriving DecidableEq, Repr

/-- The import descriptor dict consumed by `import_gcs_data`. -/
structure ImportData where
  bucket_name : String
  import_data_folder : String
  filename : String
  df_name : String
  deriving DecidableEq, Repr

/-- The export descriptor dict consumed by `export_data_gcs`. -/
structure ExportData where
  bucket_name : String
  export_data_folder : String
  local_export_folder : String
  filename : String
  deriving DecidableEq, Repr

/-- Cell access within a row; out-of-range indices read as null. -/
def cellAt (r : List Value) (i : Nat) : Value :=
  r.getD i Value.vNull

/-- Position of a column label, pandas raising `KeyError` modelled as `none`. -/
def colIdx? (cols : List String) (k : String) : Option Nat :=
  cols.findIdx? (fun c => c == k)

/-- Left-table column renaming of a pandas merge: a non-key column that also
occurs on the right side receives the `_x` suffix. -/
def mergeRenameLeft (k : String) (rcols : List String) (c : String) : String :=
  if c ≠ k ∧ c ∈ rcols then c ++ "_x" else c

/-- Right-table column renaming of a pandas merge: a column (the key was
already dropped) that also occurs on the left side receives the `_y` suffix. -/
def mergeRenameRight (lcols : List String) (c : String) : String :=
  if c ∈ lcols then c ++ "_y" else c

/-- The right rows whose key cell (at position `ri`) equals `key`; a null key
matches nothing (pandas `NaN` never joins). -/
def mergeMatches (rrows : List (List Value)) (ri : Nat) (key : Value) :
    List (List Value) :=
  rrows.filter (fun rr => decide (key ≠ Value.vNull ∧ cellAt rr ri = key))

/-- The output rows a left merge emits for one left row `lr`: one row per
matching right row, or a single null-padded row when nothing matches.
`rrows` are the right rows, `rncols` the right column count, `li` / `ri` the
key positions on the left / right. -/
def mergeRowsFor (rrows : List (List Value)) (rncols : Nat) (li ri : Nat)
    (lr : List Value) : List (List Value) :=
  if (mergeMatches rrows ri (cellAt lr li)).isEmpty then
    [lr ++ List.replicate (rncols - 1) Value.vNull]
  else (mergeMatches rrows ri (cellAt lr li)).map (fun rr => lr ++ rr.eraseIdx ri)

/-- `l.merge(right=r, left_on=k, right_on=k, how='left')`.  For each left row,
one output row per matching right row — a null key matches nothing — and a
single null-padded row when nothing matches; the key column keeps the left
values; column lookup failure is pandas `KeyError`. -/
def pdMerge (l r : Table) (k : String) : Option Table :=
  match colIdx? l.cols k, colIdx? r.cols k with
  | some li, some ri =>
      some
        { cols := l.cols.map (mergeRenameLeft k r.cols) ++
            (r.cols.eraseIdx ri).map (mergeRenameRight l.cols),
          rows := l.rows.flatMap (mergeRowsFor r.rows r.cols.length li ri) }
  | _, _ => none

/-- A nonempty run of decimal digits as a number. -/
def digitsToNat? (cs : List Char) : Option Nat :=
  if cs ≠ [] ∧ cs.all Char.isDigit then
    some (cs.foldl (fun acc c => acc * 10 + (c.toNat - 48)) 0)
  else none

/-- ISO `YYYY-MM-DD` date text, the format `pd.to_datetime` receives in this
pipeline; anything else fails (pandas raises on unparseable text). -/
def parseDate (s : String) : Option Nat :=
  match s.data.splitOn '-' with
  | [y, m, d] =>
      match digitsToNat? y, digitsToNat? m, digitsToNat? d with
      | some yn, some mn, some dn =>
          if 1 ≤ mn ∧ mn ≤ 12 ∧ 1 ≤ dn ∧ dn ≤ 31 then
            some (yn * 10000 + mn * 100 + dn)
          else none
      | _, _, _ => none
  | _ => none

/-- `pd.to_datetime` on one cell: date text parses or fails, nulls stay null
(`NaT`), integers and dates pass through as dates. -/
def pd_to_datetime (v : Value) : Option Value :=
  match v with
  | Value.vStr s => (parseDate s).map Value.vDate
  | Value.vInt n => some (Value.vDate n.toNat)
  | Value.vDate n => some (Value.vDate n)
  | Value.vNull => some Value.vNull

/-- `df['date'] = pd.to_datetime(df['date'])`: every cell of the `date` column
is replaced by its parsed form; a missing column or a parse failure fails. -/
def set_to_datetime (t : Table) : Option Table :=
  match colIdx? t.cols "date" with
  | none => none
  | some i =>
      (t.rows.mapM (fun r => (pd_to_datetime (cellAt r i)).map (fun v => r.set i v))).map
        (fun rows => { cols := t.cols, rows := rows })

/-- The unpacking `for` loop of `merge_data` for one target name: each entry of
the list whose `df_name` matches rebinds the variable, so the last match in
list order wins; no match leaves the variable unbound (`none`). -/
def unpack (dfList : List NamedDf) (name : String) : Option Table :=
  dfList.foldl (fun acc e => if e.df_name = name then some e.df else acc) none

/-- `merge_data(df_list)`: unpack `df_sl`, `df_it`, `df_ic` by name (the
`.copy()` calls are identities on immutable values, see `merge_data_heap` for
the heap-level reading); left-merge `df_it` with `df_ic` on
`item_category_id`; left-merge `df_sl` with that result on `item_id`; convert
the `date` column.  An unbound name is a Python `NameError` at the join that
reads it, modelled as `none`. -/
def merge_data (dfList : List NamedDf) : Option Table :=
  match unpack dfList "df_it", unpack dfList "df_ic" with
  | some df_it, some df_ic =>
      match pdMerge df_it df_ic "item_category_id" with
      | none => none
      | some df1 =>
          match unpack dfList "df_sl" with
          | none => none
          | some df_sl =>
              match pdMerge df_sl df1 "item_id" with
              | none => none
              | some df2 => set_to_datetime df2
  | _, _ => none

/-- `df.drop_duplicates()`, keeping the first occurrence of each row:
the recursion carries the set of rows already emitted. -/
def dropDupsFrom (seen : List (List Value)) : List (List Value) → List (List Value)
  | [] => []
  | r :: rs => if r ∈ seen then dropDupsFrom seen rs else r :: dropDupsFrom (r :: seen) rs

/-- `df.drop_duplicates()` on a table. -/
def drop_duplicates (t : Table) : Table :=
  { cols := t.cols, rows := dropDupsFrom [] t.rows }

/-- The URI `import_gcs_data` composes for `pd.read_csv`. -/
def gcsImportUri (d : ImportData) : String :=
  "gcs://" ++ d.bucket_name ++ "/" ++ d.import_data_folder ++ "/" ++ d.filename

/-- `import_gcs_data(import_data)`: read the CSV at the composed URI (the
cloud store is the function `gcsRead`, sending a URI to the table its CSV
parses to), drop duplicate rows, and pair the result with the descriptor's
logical name. -/
def import_gcs_data (gcsRead : String → Table) (import_data : ImportData) : NamedDf :=
  { df_name := import_data.df_name,
    df := drop_duplicates (gcsRead (gcsImportUri import_data)) }

/-- One CSV cell as text. -/
def csvCell : Value → String
  | Value.vStr s => s
  | Value.vInt n => toString n
  | Value.vDate n => toString n
  | Value.vNull => ""

/-- One CSV line. -/
def csvLine (r : List Value) : String :=
  String.intercalate "," (r.map csvCell)

/-- `df.to_csv(..., index=...)`: header line then one line per row; with
`index=True` pandas prepends the row index column (unnamed in the header). -/
def to_csv (t : Table) (index : Bool) : String :=
  let header :=
    if index then String.intercalate "," ("" :: t.cols)
    else String.intercalate "," t.cols
  let body :=
    if index then t.rows.enum.map (fun p => toString p.1 ++ "," ++ csvLine p.2)
    else t.rows.map csvLine
  String.intercalate "\n" (header :: body) ++ "\n"

/-- The cloud URI `export_data_gcs` composes for its first `to_csv` call. -/
def gcsExportUri (e : ExportData) : String :=
  "gcs://" ++ e.bucket_name ++ "/" ++ e.export_data_folder ++ "/" ++ e.filename

/-- The local path `export_data_gcs` composes for its second `to_csv` call. -/
def localExportPath (e : ExportData) : String :=
  e.local_export_folder ++ "/" ++ e.filename

/-- `export_data_gcs(df, export_data)`: serialize `df` once to CSV without the
row index, write it to the cloud URI, then write it to the local path; return
`df` itself.  `writeOk` says whether a write to a given destination with given
content succeeds; the second component is the log of completed writes in
order, and a failed write raises — later statements never run and nothing is
returned (`none`). -/
def export_data_gcs (writeOk : String → String → Bool) (df : Table)
    (export_data : ExportData) : Option Table × List (String × String) :=
  let content := to_csv df false
  if writeOk (gcsExportUri export_data) content then
    if writeOk (localExportPath export_data) content then
      (some df,
        [(gcsExportUri export_data, content), (localExportPath export_data, content)])
    else (none, [(gcsExportUri export_data, content)])
  else (none, [])

/-- A Python heap of dataframe objects: `merge_data` is re-read at this level
to settle what it mutates.  A cell is one `pandas.DataFrame` object. -/
abbrev Heap := List Table

/-- An entry of `df_list` at the heap level: a logical name and a reference to
the dataframe object it carries. -/
structure NamedRef where
  df_name : String
  ref : Nat
  deriving DecidableEq, Repr

/-- One iteration of the unpacking `for` loop of `merge_data` at the heap
level: a matching entry has its dataframe read and `.copy()`-ed into a fresh
heap cell, and the corresponding local variable rebound to the copy.  The
accumulator is the heap and the bindings of `df_sl`, `df_it`, `df_ic`. -/
def unpackStep (acc : Heap × Option Nat × Option Nat × Option Nat) (e : NamedRef) :
    Heap × Option Nat × Option Nat × Option Nat :=
  if e.df_name = "df_sl" then
    match acc.1[e.ref]? with
    | some t => (acc.1 ++ [t], some acc.1.length, acc.2.2.1, acc.2.2.2)
    | none => acc
  else if e.df_name = "df_it" then
    match acc.1[e.ref]? with
    | some t => (acc.1 ++ [t], acc.2.1, some acc.1.length, acc.2.2.2)
    | none => acc
  else if e.df_name = "df_ic" then
    match acc.1[e.ref]? with
    | some t => (acc.1 ++ [t], acc.2.1, acc.2.2.1, some acc.1.length)
    | none => acc
  else acc

/-- The join-and-convert statements of `merge_data` at the heap level, after
the unpacking loop left the heap `h1` and the bindings `sl?` / `it?` / `ic?`.
The joins allocate fresh dataframes, and `df['date'] = pd.to_datetime(df['date'])`
is the one mutating statement of the function: it writes through the reference
to the second join's result (a frame the function itself allocated). -/
def mergeSteps (h1 : Heap) (sl? it? ic? : Option Nat) : Heap × Option Table :=
  match it?.bind (fun r => h1[r]?), ic?.bind (fun r => h1[r]?) with
  | some df_it, some df_ic =>
      match pdMerge df_it df_ic "item_category_id" with
      | none => (h1, none)
      | some df1 =>
          match sl?.bind (fun r => (h1 ++ [df1])[r]?) with
          | none => (h1 ++ [df1], none)
          | some df_sl =>
              match pdMerge df_sl df1 "item_id" with
              | none => (h1 ++ [df1], none)
              | some df2 =>
                  match set_to_datetime df2 with
                  | none => (h1 ++ [df1] ++ [df2], none)
                  | some df3 =>
                      ((h1 ++ [df1] ++ [df2]).set (h1 ++ [df1]).length df3, some df3)
  | _, _ => (h1, none)

/-- `merge_data` at the heap level: run the unpacking loop, then the joins and
the date conversion.  Returns the final heap and the result. -/
def merge_data_heap (h0 : Heap) (dfList : List NamedRef) : Heap × Option Table :=
  mergeSteps (dfList.foldl unpackStep (h0, none, none, none)).1
    (dfList.foldl unpackStep (h0, none, none, none)).2.1
    (dfList.foldl unpackStep (h0, none, none, none)).2.2.1
    (dfList.foldl unpackStep (h0, none, none, none)).2.2.2

/-! ### List and Option helper lemmas -/

theorem mapM_some_length {α β : Type} (f : α → Option β) :
    ∀ (l : List α) (l2 : List β), l.mapM f = some l2 → l2.length = l.length := by
  intro l
  induction l with
  | nil =>
      intro l2 h
      rw [List.mapM_nil] at h
      injection h with h
      rw [← h]
      rfl
  | cons a l ih =>
      intro l2 h
      rw [List.mapM_cons] at h
      cases hfa : f a with
      | none => rw [hfa] at h; exact Option.noConfusion h
      | some b =>
          rw [hfa] at h
          cases hml : l.mapM f with
          | none => rw [hml] at h; exact Option.noConfusion h
          | some bs =>
              rw [hml] at h
              have h2 : some (b :: bs) = some l2 := h
              injection h2 with h2
              rw [← h2, List.length_cons, ih bs hml]
              rfl

theorem mapM_some_mem {α β : Type} (f : α → Option β) :
    ∀ (l : List α) (l2 : List β), l.mapM f = some l2 →
      ∀ b ∈ l2, ∃ a ∈ l, f a = some b := by
  intro l
  induction l with
  | nil =>
      intro l2 h b hb
      rw [List.mapM_nil] at h
      injection h with h
      rw [← h] at hb
      exact absurd hb (List.not_mem_nil b)
  | cons a l ih =>
      intro l2 h b hb
      rw [List.mapM_cons] at h
      cases hfa : f a with
      | none => rw [hfa] at h; exact Option.noConfusion h
      | some b0 =>
          rw [hfa] at h
          cases hml : l.mapM f with
          | none => rw [hml] at h; exact Option.noConfusion h
          | some bs =>
              rw [hml] at h
              have h2 : some (b0 :: bs) = some l2 := h
              injection h2 with h2
              rw [← h2] at hb
              rcases List.mem_cons.mp hb with rfl | hb
              · exact ⟨a, by simp, hfa⟩
              · obtain ⟨a2, ha2, hfa2⟩ := ih bs hml b hb
                exact ⟨a2, by simp [ha2], hfa2⟩

theorem mapM_isSome {α β : Type} (f : α → Option β) :
    ∀ (l : List α), (∀ a ∈ l, (f a).isSome) → ∃ l2, l.mapM f = some l2 := by
  intro l
  induction l with
  | nil => intro _; exact ⟨[], by rw [List.mapM_nil]; rfl⟩
  | cons a l ih =>
      intro h
      obtain ⟨b, hb⟩ := Option.isSome_iff_exists.mp (h a (by simp))
      obtain ⟨bs, hbs⟩ := ih (fun x hx => h x (by simp [hx]))
      refine ⟨b :: bs, ?_⟩
      rw [List.mapM_cons, hb, hbs]
      rfl

/-! ### Lemmas about the unpacking loop -/

theorem unpack_append_singleton (l : List NamedDf) (e : NamedDf) (n : String) :
    unpack (l ++ [e]) n = if e.df_name = n then some e.df else unpack l n := by
  rw [unpack, List.foldl_append]
  rfl

theorem unpack_eq_none (l : List NamedDf) (n : String) (h : ∀ e ∈ l, e.df_name ≠ n) :
    unpack l n = none := by
  induction l using List.reverseRecOn with
  | nil => rfl
  | append_singleton l e ih =>
      rw [unpack_append_singleton, if_neg (h e (by simp))]
      exact ih (fun x hx => h x (by simp [hx]))

theorem unpack_getLast (l : List NamedDf) (n : String) :
    unpack l n =
      (l.filterMap (fun e => if e.df_name = n then some e.df else none)).getLast? := by
  induction l using List.reverseRecOn with
  | nil => rfl
  | append_singleton l e ih =>
      rw [unpack_append_singleton, List.filterMap_append, List.getLast?_append]
      by_cases he : e.df_name = n
      · rw [if_pos he]
        simp [he]
      · rw [if_neg he]
        simp [he, ih]

theorem unpack_filter (l : List NamedDf) (p : NamedDf → Bool) (n : String)
    (hp : ∀ e, e.df_name = n → p e = true) :
    unpack (l.filter p) n = unpack l n := by
  induction l using List.reverseRecOn with
  | nil => rfl
  | append_singleton l e ih =>
      rw [List.filter_append]
      by_cases hpe : p e = true
      · simp only [List.filter_cons, hpe, if_true, List.filter_nil]
        rw [unpack_append_singleton, unpack_append_singleton, ih]
      · have hne : e.df_name ≠ n := fun h => hpe (hp e h)
        simp only [List.filter_cons, hpe, if_false, List.filter_nil, List.append_nil,
          Bool.false_eq_true]
        rw [unpack_append_singleton, if_neg hne, ih]

/-! ### Lemmas about duplicate dropping -/

theorem mem_dropDupsFrom (l : List (List Value)) :
    ∀ (seen : List (List Value)) (r : List Value),
      r ∈ dropDupsFrom seen l ↔ r ∈ l ∧ r ∉ seen := by
  induction l with
  | nil => intro seen r; simp [dropDupsFrom]
  | cons a l ih =>
      intro seen r
      by_cases ha : a ∈ seen
      · rw [dropDupsFrom, if_pos ha, ih]
        constructor
        · rintro ⟨h1, h2⟩
          exact ⟨by simp [h1], h2⟩
        · rintro ⟨h1, h2⟩
          rcases List.mem_cons.mp h1 with rfl | h1
          · exact absurd ha h2
          · exact ⟨h1, h2⟩
      · rw [dropDupsFrom, if_neg ha]
        constructor
        · intro h
          rcases List.mem_cons.mp h with rfl | h
          · exact ⟨by simp, ha⟩
          · obtain ⟨h1, h2⟩ := (ih (a :: seen) r).mp h
            exact ⟨by simp [h1], fun hr => h2 (by simp [hr])⟩
        · rintro ⟨h1, h2⟩
          rcases List.mem_cons.mp h1 with rfl | h1
          · exact List.mem_cons_self r _
          · by_cases hra : r = a
            · subst hra; exact List.mem_cons_self r _
            · exact List.mem_cons_of_mem a ((ih (a :: seen) r).mpr
                ⟨h1, fun hr => (List.mem_cons.mp hr).elim hra h2⟩)

theorem nodup_dropDupsFrom (l : List (List Value)) :
    ∀ seen : List (List Value), (dropDupsFrom seen l).Nodup := by
  induction l with
  | nil => intro seen; simp [dropDupsFrom]
  | cons a l ih =>
      intro seen
      rw [dropDupsFrom]
      by_cases ha : a ∈ seen
      · rw [if_pos ha]; exact ih seen
      · rw [if_neg ha]
        refine List.nodup_cons.mpr ⟨?_, ih (a :: seen)⟩
        intro hmem
        exact ((mem_dropDupsFrom l (a :: seen) a).mp hmem).2 (by simp)

/-! ### Column-index lemmas -/

theorem findIdx?_congr {α : Type} (p q : α → Bool) (l : List α) (h : ∀ x ∈ l, p x = q x) :
    ∀ i, List.findIdx? p l i = List.findIdx? q l i := by
  induction l with
  | nil => intro i; rfl
  | cons a l ih =>
      intro i
      rw [List.findIdx?_cons, List.findIdx?_cons, h a (by simp)]
      by_cases hq : q a = true
      · rw [if_pos hq, if_pos hq]
      · rw [if_neg hq, if_neg hq]
        exact ih (fun x hx => h x (by simp [hx])) (i + 1)

theorem colIdx?_lt_length (cols : List String) (k : String) (i : Nat)
    (h : colIdx? cols k = some i) : i < cols.length :=
  (List.findIdx?_eq_some_iff_findIdx_eq.mp h).1

theorem colIdx?_mem (cols : List String) (k : String) (i : Nat)
    (h : colIdx? cols k = some i) : k ∈ cols := by
  by_contra hk
  rw [colIdx?, List.findIdx?_eq_none_iff.mpr] at h
  · exact Option.noConfusion h
  · intro c hc
    exact beq_eq_false_iff_ne.mpr (fun hck => hk (hck ▸ hc))

/-! ### Suffixed column names never collide with a short plain name -/

theorem append_ne_of_getLast (c t m : String) (ch : Char)
    (ht : t.data.getLast? = some ch) (hm : m.data.getLast? ≠ some ch) :
    c ++ t ≠ m := by
  intro h
  apply hm
  rw [← h, String.data_append, List.getLast?_append, ht, Option.or_some]

theorem suffix_x_ne (c m : String) (hm : m.data.getLast? ≠ some 'x') : c ++ "_x" ≠ m :=
  append_ne_of_getLast c "_x" m 'x' (by decide) hm

theorem suffix_y_ne (c m : String) (hm : m.data.getLast? ≠ some 'y') : c ++ "_y" ≠ m :=
  append_ne_of_getLast c "_y" m 'y' (by decide) hm

/-! ### Where a column label lands in merged columns -/

theorem mergeRenameLeft_self (k : String) (rcols : List String) (target : String)
    (hnr : target ∉ rcols ∨ target = k) :
    mergeRenameLeft k rcols target = target := by
  rw [mergeRenameLeft, if_neg]
  rintro ⟨hne, hmem⟩
  rcases hnr with h | h
  · exact h hmem
  · exact hne h

theorem mergeRenameLeft_ne (k : String) (rcols : List String) (target c : String)
    (hxne : ∀ c0 : String, c0 ++ "_x" ≠ target) (hc : c ≠ target) :
    mergeRenameLeft k rcols c ≠ target := by
  rw [mergeRenameLeft]
  split
  · exact hxne c
  · exact hc

theorem colIdx?_merged_left (lcols rcols : List String) (k target : String) (ridx j : Nat)
    (hxne : ∀ c : String, c ++ "_x" ≠ target)
    (hnr : target ∉ rcols ∨ target = k)
    (hj : colIdx? lcols target = some j) :
    colIdx? (lcols.map (mergeRenameLeft k rcols) ++
      (rcols.eraseIdx ridx).map (mergeRenameRight lcols)) target = some j := by
  rw [colIdx?, List.findIdx?_append]
  have h1 : List.findIdx? (fun c => c == target) (lcols.map (mergeRenameLeft k rcols)) =
      some j := by
    rw [List.findIdx?_map]
    rw [findIdx?_congr ((fun c => c == target) ∘ mergeRenameLeft k rcols)
      (fun c => c == target) lcols ?_ 0]
    · exact hj
    · intro x _
      by_cases hcx : x = target
      · subst hcx
        show (mergeRenameLeft k rcols x == x) = (x == x)
        rw [mergeRenameLeft_self k rcols x hnr]
      · show (mergeRenameLeft k rcols x == target) = (x == target)
        rw [beq_eq_false_iff_ne.mpr (mergeRenameLeft_ne k rcols target x hxne hcx),
          beq_eq_false_iff_ne.mpr hcx]
  rw [h1, Option.or_some]

theorem colIdx?_merged_none (lcols rcols : List String) (k target : String) (ridx : Nat)
    (hxne : ∀ c : String, c ++ "_x" ≠ target)
    (hyne : ∀ c : String, c ++ "_y" ≠ target)
    (hml : target ∈ lcols) (hmr : target ∈ rcols) (hkne : target ≠ k) :
    colIdx? (lcols.map (mergeRenameLeft k rcols) ++
      (rcols.eraseIdx ridx).map (mergeRenameRight lcols)) target = none := by
  rw [colIdx?, List.findIdx?_eq_none_iff]
  intro x hx
  rw [beq_eq_false_iff_ne]
  rcases List.mem_append.mp hx with hx | hx
  · obtain ⟨c, hc, rfl⟩ := List.mem_map.mp hx
    by_cases hct : c = target
    · subst hct
      rw [mergeRenameLeft, if_pos ⟨hkne, hmr⟩]
      exact hxne c
    · exact mergeRenameLeft_ne k rcols target c hxne hct
  · obtain ⟨c, hc, rfl⟩ := List.mem_map.mp hx
    by_cases hct : c = target
    · subst hct
      rw [mergeRenameRight, if_pos hml]
      exact hyne c
    · rw [mergeRenameRight]
      split
      · exact hyne c
      · exact hct

/-! ### Cell access and update across row concatenation -/

theorem cellAt_append_left (a rest : List Value) (j : Nat) (h : j < a.length) :
    cellAt (a ++ rest) j = cellAt a j := by
  rw [cellAt, cellAt, List.getD_append a rest Value.vNull j h]

theorem set_append_left (a rest : List Value) (j : Nat) (v : Value) (h : j < a.length) :
    (a ++ rest).set j v = a.set j v ++ rest := by
  rw [List.set_append, if_pos h]

theorem cellAt_set_self (r : List Value) (j : Nat) (v : Value) (h : j < r.length) :
    cellAt (r.set j v) j = v := by
  rw [cellAt, List.getD_eq_getElem?_getD, List.getElem?_set_self h, Option.getD_some]

/-! ### Counting matches under a duplicate-free key column -/

theorem mergeMatches_length_le_one (rrows : List (List Value)) (ri : Nat) (key : Value)
    (hnd : (rrows.map (fun r => cellAt r ri)).Nodup) :
    (mergeMatches rrows ri key).length ≤ 1 := by
  rw [mergeMatches, ← List.countP_eq_length_filter]
  calc List.countP (fun rr => decide (key ≠ Value.vNull ∧ cellAt rr ri = key)) rrows
      ≤ List.countP (fun rr => cellAt rr ri == key) rrows := by
        apply List.countP_mono_left
        intro rr _ hp
        exact beq_iff_eq.mpr (of_decide_eq_true hp).2
    _ = List.countP (fun v => v == key) (rrows.map (fun r => cellAt r ri)) := by
        rw [List.countP_map]
        rfl
    _ = List.count key (rrows.map (fun r => cellAt r ri)) :=
        (List.count_eq_countP _ _).symm
    _ ≤ 1 := List.nodup_iff_count_le_one.mp hnd key

theorem mergeRowsFor_shape (rrows : List (List Value)) (rncols li ri : Nat)
    (lr : List Value) :
    ∀ row ∈ mergeRowsFor rrows rncols li ri lr, ∃ rest, row = lr ++ rest := by
  intro row hrow
  rw [mergeRowsFor] at hrow
  split at hrow
  · rcases List.mem_singleton.mp hrow with rfl
    exact ⟨_, rfl⟩
  · obtain ⟨rr, _, hrr⟩ := List.mem_map.mp hrow
    exact ⟨rr.eraseIdx ri, hrr.symm⟩

theorem mergeRowsFor_length_one (rrows : List (List Value)) (rncols li ri : Nat)
    (lr : List Value)
    (hnd : (rrows.map (fun r => cellAt r ri)).Nodup) :
    (mergeRowsFor rrows rncols li ri lr).length = 1 := by
  rw [mergeRowsFor]
  split
  · rfl
  · rename_i hne
    rw [List.length_map]
    have hle := mergeMatches_length_le_one rrows ri (cellAt lr li) hnd
    have hpos : (mergeMatches rrows ri (cellAt lr li)).length ≠ 0 := by
      intro h0
      exact hne (List.isEmpty_iff.mpr (List.length_eq_zero.mp h0))
    omega

theorem mergeRowsFor_singleton (rrows : List (List Value)) (rncols li ri : Nat)
    (lr : List Value)
    (hnd : (rrows.map (fun r => cellAt r ri)).Nodup) :
    ∃ rest, mergeRowsFor rrows rncols li ri lr = [lr ++ rest] := by
  obtain ⟨row, hrow⟩ :=
    List.length_eq_one.mp (mergeRowsFor_length_one rrows rncols li ri lr hnd)
  obtain ⟨rest, hrest⟩ :=
    mergeRowsFor_shape rrows rncols li ri lr row (by rw [hrow]; simp)
  exact ⟨rest, by rw [hrow, hrest]⟩

/-! ### Lengths and cells through flatMap -/

theorem flatMap_length_one {α β : Type} (l : List α) (f : α → List β)
    (h : ∀ a ∈ l, (f a).length = 1) : (l.flatMap f).length = l.length := by
  induction l with
  | nil => rfl
  | cons a l ih =>
      rw [List.flatMap_cons, List.length_append, h a (by simp),
        ih (fun x hx => h x (by simp [hx])), List.length_cons, Nat.add_comm]

theorem flatMap_singleton_map_cell (rows : List (List Value))
    (F : List Value → List (List Value)) (j : Nat)
    (h1 : ∀ lr ∈ rows, ∃ rest, F lr = [lr ++ rest])
    (h2 : ∀ lr ∈ rows, j < lr.length) :
    (rows.flatMap F).map (fun r => cellAt r j) = rows.map (fun r => cellAt r j) := by
  induction rows with
  | nil => rfl
  | cons a l ih =>
      obtain ⟨rest, hrest⟩ := h1 a (by simp)
      rw [List.flatMap_cons, hrest, List.map_append, List.map_cons, List.map_nil,
        List.map_cons, cellAt_append_left a rest j (h2 a (by simp)),
        ih (fun x hx => h1 x (by simp [hx])) (fun x hx => h2 x (by simp [hx])),
        List.singleton_append]

/-! ### Shape of successful runs -/

theorem pdMerge_some_elim (l r : Table) (k : String) (t : Table)
    (h : pdMerge l r k = some t) :
    ∃ li ri, colIdx? l.cols k = some li ∧ colIdx? r.cols k = some ri ∧
      t.cols = l.cols.map (mergeRenameLeft k r.cols) ++
        (r.cols.eraseIdx ri).map (mergeRenameRight l.cols) ∧
      t.rows = l.rows.flatMap (mergeRowsFor r.rows r.cols.length li ri) := by
  rw [pdMerge] at h
  split at h
  · rename_i li ri hli hri
    injection h with h
    exact ⟨li, ri, hli, hri, by rw [← h], by rw [← h]⟩
  · exact Option.noConfusion h

theorem set_to_datetime_some_elim (t t2 : Table) (h : set_to_datetime t = some t2) :
    ∃ i rows, colIdx? t.cols "date" = some i ∧
      t.rows.mapM (fun r => (pd_to_datetime (cellAt r i)).map (fun v => r.set i v)) =
        some rows ∧
      t2.cols = t.cols ∧ t2.rows = rows := by
  rw [set_to_datetime] at h
  split at h
  · exact Option.noConfusion h
  · rename_i i hi
    cases hm : t.rows.mapM
        (fun r => (pd_to_datetime (cellAt r i)).map (fun v => r.set i v)) with
    | none => rw [hm] at h; exact Option.noConfusion h
    | some rows =>
        rw [hm, Option.map_some'] at h
        injection h with h
        exact ⟨i, rows, hi, hm, by rw [← h], by rw [← h]⟩

theorem merge_data_some_elim (l : List NamedDf) (t : Table) (h : merge_data l = some t) :
    ∃ sl it ic df1 df2,
      unpack l "df_it" = some it ∧ unpack l "df_ic" = some ic ∧
      pdMerge it ic "item_category_id" = some df1 ∧
      unpack l "df_sl" = some sl ∧
      pdMerge sl df1 "item_id" = some df2 ∧
      set_to_datetime df2 = some t := by
  rw [merge_data] at h
  split at h
  · rename_i it ic hit hic
    split at h
    · exact Option.noConfusion h
    · rename_i df1 h1
      split at h
      · exact Option.noConfusion h
      · rename_i sl hsl
        split at h
        · exact Option.noConfusion h
        · rename_i df2 h2
          exact ⟨sl, it, ic, df1, df2, hit, hic, h1, hsl, h2, h⟩
  · exact Option.noConfusion h

theorem merge_data_congr (l l2 : List NamedDf)
    (h1 : unpack l "df_sl" = unpack l2 "df_sl")
    (h2 : unpack l "df_it" = unpack l2 "df_it")
    (h3 : unpack l "df_ic" = unpack l2 "df_ic") :
    merge_data l = merge_data l2 := by
  rw [merge_data, merge_data, h1, h2, h3]

/-! ### The heap only grows at cells the inputs do not occupy -/

/-- `h2` extends `h`: every cell of `h` is still present, unchanged. -/
def heapGrows (h h2 : Heap) : Prop :=
  h.length ≤ h2.length ∧ ∀ i, i < h.length → h2[i]? = h[i]?

theorem heapGrows_refl (h : Heap) : heapGrows h h :=
  ⟨Nat.le_refl _, fun _ _ => rfl⟩

theorem heapGrows_trans {h1 h2 h3 : Heap} (a : heapGrows h1 h2) (b : heapGrows h2 h3) :
    heapGrows h1 h3 :=
  ⟨Nat.le_trans a.1 b.1, fun i hi => by
    rw [b.2 i (Nat.lt_of_lt_of_le hi a.1), a.2 i hi]⟩

theorem heapGrows_append (h : Heap) (ts : List Table) : heapGrows h (h ++ ts) :=
  ⟨by rw [List.length_append]; exact Nat.le_add_right _ _,
   fun i hi => by rw [List.getElem?_append, if_pos hi]⟩

theorem heapGrows_set {h h2 : Heap} (g : heapGrows h h2) (j : Nat) (v : Table)
    (hj : h.length ≤ j) : heapGrows h (h2.set j v) :=
  ⟨by rw [List.length_set]; exact g.1,
   fun i hi => by
    rw [List.getElem?_set_ne (Nat.ne_of_gt (Nat.lt_of_lt_of_le hi hj)), g.2 i hi]⟩

theorem unpackStep_grows (acc : Heap × Option Nat × Option Nat × Option Nat)
    (e : NamedRef) : heapGrows acc.1 (unpackStep acc e).1 := by
  rw [unpackStep]
  split
  · split
    · exact heapGrows_append _ _
    · exact heapGrows_refl _
  · split
    · split
      · exact heapGrows_append _ _
      · exact heapGrows_refl _
    · split
      · split
        · exact heapGrows_append _ _
        · exact heapGrows_refl _
      · exact heapGrows_refl _

theorem foldl_unpackStep_grows (l : List NamedRef) :
    ∀ acc : Heap × Option Nat × Option Nat × Option Nat,
      heapGrows acc.1 (l.foldl unpackStep acc).1 := by
  induction l with
  | nil => intro acc; exact heapGrows_refl _
  | cons e l ih =>
      intro acc
      rw [List.foldl_cons]
      exact heapGrows_trans (unpackStep_grows acc e) (ih (unpackStep acc e))

theorem mergeSteps_grows (h1 : Heap) (sl? it? ic? : Option Nat) :
    heapGrows h1 (mergeSteps h1 sl? it? ic?).1 := by
  rw [mergeSteps]
  split
  · split
    · exact heapGrows_refl _
    · split
      · exact heapGrows_append _ _
      · split
        · exact heapGrows_append _ _
        · split
          · exact heapGrows_trans (heapGrows_append _ _) (heapGrows_append _ _)
          · exact heapGrows_set
              (heapGrows_trans (heapGrows_append _ _) (heapGrows_append _ _)) _ _
              (by rw [List.length_append]; exact Nat.le_add_right _ _)
  · exact heapGrows_refl _

theorem merge_data_heap_grows (h0 : Heap) (l : List NamedRef) :
    heapGrows h0 (merge_data_heap h0 l).1 := by
  rw [merge_data_heap]
  exact heapGrows_trans (foldl_unpackStep_grows l (h0, none, none, none))
    (mergeSteps_grows _ _ _ _)

/-! ### Pointwise characterizations used to run the merger symbolically -/

theorem pdMerge_eq_of_idx (l r : Table) (k : String) (li ri : Nat)
    (hli : colIdx? l.cols k = some li) (hri : colIdx? r.cols k = some ri) :
    pdMerge l r k = some ⟨l.cols.map (mergeRenameLeft k r.cols) ++
      (r.cols.eraseIdx ri).map (mergeRenameRight l.cols),
      l.rows.flatMap (mergeRowsFor r.rows r.cols.length li ri)⟩ := by
  rw [pdMerge, hli, hri]

theorem pdMerge_mk_right (l : Table) (rcols : List String) (rrows : List (List Value))
    (k : String) (li ri : Nat)
    (hli : colIdx? l.cols k = some li) (hri : colIdx? rcols k = some ri) :
    pdMerge l ⟨rcols, rrows⟩ k = some ⟨l.cols.map (mergeRenameLeft k rcols) ++
      (rcols.eraseIdx ri).map (mergeRenameRight l.cols),
      l.rows.flatMap (mergeRowsFor rrows rcols.length li ri)⟩ :=
  pdMerge_eq_of_idx l ⟨rcols, rrows⟩ k li ri hli hri

theorem set_to_datetime_mk (cols : List String) (rows rows2 : List (List Value)) (i : Nat)
    (hi : colIdx? cols "date" = some i)
    (hm : rows.mapM (fun r => (pd_to_datetime (cellAt r i)).map (fun v => r.set i v)) =
      some rows2) :
    set_to_datetime ⟨cols, rows⟩ = some ⟨cols, rows2⟩ := by
  simp only [set_to_datetime, hi, hm, Option.map_some']

theorem bind_chain_aux (x : Option Table) (sl : Table) :
    (match x with
     | none => none
     | some df1 =>
         match some sl with
         | none => (none : Option Table)
         | some df_sl =>
             match pdMerge df_sl df1 "item_id" with
             | none => none
             | some df2 => set_to_datetime df2) =
    x.bind (fun df1 => (pdMerge sl df1 "item_id").bind set_to_datetime) := by
  cases x with
  | none => rfl
  | some df1 =>
      show (match pdMerge sl df1 "item_id" with
        | none => none
        | some df2 => set_to_datetime df2) = _
      simp only [Option.some_bind]
      cases pdMerge sl df1 "item_id" with
      | none => rfl
      | some df2 => rfl

theorem merge_data_unfold (l : List NamedDf) (sl it ic : Table)
    (hsl : unpack l "df_sl" = some sl) (hit : unpack l "df_it" = some it)
    (hic : unpack l "df_ic" = some ic) :
    merge_data l = (pdMerge it ic "item_category_id").bind (fun df1 =>
      (pdMerge sl df1 "item_id").bind set_to_datetime) := by
  rw [merge_data, hit, hic, hsl]
  exact bind_chain_aux (pdMerge it ic "item_category_id") sl

/-! ### Concrete datasets used to instantiate the theorems

`cex...` is a run in which the items table carries the same `item_id` under
two categories, so the second left join fans the one sales-log row out into
two output rows.  `w...` is a run with duplicate-free key columns. -/

def cexSl : Table := ⟨["item_id", "date", "qty"],
  [[Value.vStr "1", Value.vStr "2015-01-02", Value.vInt 3]]⟩

def cexIt : Table := ⟨["item_id", "item_category_id"],
  [[Value.vStr "1", Value.vStr "c1"], [Value.vStr "1", Value.vStr "c2"]]⟩

def cexIc : Table := ⟨["item_category_id", "name"],
  [[Value.vStr "c1", Value.vStr "A"], [Value.vStr "c2", Value.vStr "B"]]⟩

def cexList : List NamedDf := [⟨"df_sl", cexSl⟩, ⟨"df_it", cexIt⟩, ⟨"df_ic", cexIc⟩]

def cexOut : Table := ⟨["item_id", "date", "qty", "item_category_id", "name"],
  [[Value.vStr "1", Value.vDate 20150102, Value.vInt 3, Value.vStr "c1", Value.vStr "A"],
   [Value.vStr "1", Value.vDate 20150102, Value.vInt 3, Value.vStr "c2", Value.vStr "B"]]⟩

def wSl : Table := ⟨["item_id", "date", "qty"],
  [[Value.vStr "1", Value.vStr "2015-01-02", Value.vInt 3],
   [Value.vStr "2", Value.vStr "2015-02-10", Value.vInt 1]]⟩

def wIt : Table := ⟨["item_id", "item_category_id"],
  [[Value.vStr "1", Value.vStr "c1"], [Value.vStr "2", Value.vStr "c2"]]⟩

def wIc : Table := ⟨["item_category_id", "name"],
  [[Value.vStr "c1", Value.vStr "A"], [Value.vStr "c2", Value.vStr "B"]]⟩

def wList : List NamedDf := [⟨"df_sl", wSl⟩, ⟨"df_it", wIt⟩, ⟨"df_ic", wIc⟩]

def wOut : Table := ⟨["item_id", "date", "qty", "item_category_id", "name"],
  [[Value.vStr "1", Value.vDate 20150102, Value.vInt 3, Value.vStr "c1", Value.vStr "A"],
   [Value.vStr "2", Value.vDate 20150210, Value.vInt 1, Value.vStr "c2", Value.vStr "B"]]⟩

def wExport : ExportData := ⟨"bucket", "exp", "local", "sales.csv"⟩

/-! ### The claims -/

/-- Claim C1, as amended.  The claim asserted that the row count of
`merge_data`'s output equals the sales-log row count with no hypothesis on the
items or categories tables; the counterexample `merge_data_cardinality_cex`
shows a duplicated `item_id` in the items table fans one sales-log row out
into several.  Amended: when the items table's `item_id` column and the
categories table's `item_category_id` column hold pairwise-distinct values
(and the items table is rectangular), every successful `merge_data` run
returns exactly one output row per sales-log row. -/
theorem merge_data_left_cardinality (l : List NamedDf) (sl it ic : Table)
    (hsl : unpack l "df_sl" = some sl)
    (hit : unpack l "df_it" = some it)
    (hic : unpack l "df_ic" = some ic)
    (hwf : ∀ r ∈ it.rows, r.length = it.cols.length)
    (jit : Nat) (hjit : colIdx? it.cols "item_id" = some jit)
    (hnit : (it.rows.map (fun r => cellAt r jit)).Nodup)
    (jic : Nat) (hjic : colIdx? ic.cols "item_category_id" = some jic)
    (hnic : (ic.rows.map (fun r => cellAt r jic)).Nodup)
    (t : Table) (ht : merge_data l = some t) :
    t.rows.length = sl.rows.length := by
  obtain ⟨sl2, it2, ic2, df1, df2, hit2, hic2, hm1, hsl2, hm2, hdt⟩ :=
    merge_data_some_elim l t ht
  rw [hit] at hit2
  injection hit2 with hit2
  subst hit2
  rw [hic] at hic2
  injection hic2 with hic2
  subst hic2
  rw [hsl] at hsl2
  injection hsl2 with hsl2
  subst hsl2
  obtain ⟨li1, ri1, hli1, hri1, hc1, hr1⟩ := pdMerge_some_elim it ic _ df1 hm1
  rw [hjic] at hri1
  injection hri1 with hri1
  subst hri1
  obtain ⟨li2, ri2, hli2, hri2, hc2, hr2⟩ := pdMerge_some_elim sl df1 _ df2 hm2
  have hmem_it : "item_id" ∈ it.cols := colIdx?_mem _ _ _ hjit
  have hic_notmem : "item_id" ∉ ic.cols := by
    intro hmem
    have hnone := colIdx?_merged_none it.cols ic.cols "item_category_id" "item_id" jic
      (fun c => suffix_x_ne c _ (by decide)) (fun c => suffix_y_ne c _ (by decide))
      hmem_it hmem (by decide)
    rw [← hc1] at hnone
    rw [hnone] at hri2
    exact Option.noConfusion hri2
  have hidx1 : colIdx? df1.cols "item_id" = some jit := by
    rw [hc1]
    exact colIdx?_merged_left it.cols ic.cols "item_category_id" "item_id" jic jit
      (fun c => suffix_x_ne c _ (by decide)) (Or.inl hic_notmem) hjit
  rw [hidx1] at hri2
  injection hri2 with hri2
  subst hri2
  have hjlt : jit < it.cols.length := colIdx?_lt_length _ _ _ hjit
  have hnd1 : (df1.rows.map (fun r => cellAt r jit)).Nodup := by
    rw [hr1, flatMap_singleton_map_cell it.rows _ jit
      (fun lr _ => mergeRowsFor_singleton ic.rows ic.cols.length li1 jic lr hnic)
      (fun lr hlr => by rw [hwf lr hlr]; exact hjlt)]
    exact hnit
  have hlen2 : df2.rows.length = sl.rows.length := by
    rw [hr2]
    exact flatMap_length_one sl.rows _
      (fun lr _ => mergeRowsFor_length_one df1.rows df1.cols.length li2 jit lr hnd1)
  obtain ⟨i, rows2, hi, hmapm, hcols, hrows⟩ := set_to_datetime_some_elim df2 t hdt
  rw [hrows, mapM_some_length _ _ _ hmapm, hlen2]

/-- Claim C1, counterexample to the claim as stated: in `cexList` the three
expected names are present, the sales log has one row, and `merge_data`
returns a table of two rows — a left join does not preserve left cardinality
when the right key repeats. -/
theorem merge_data_cardinality_cex :
    unpack cexList "df_sl" = some cexSl ∧ cexSl.rows ≠ [] ∧
    unpack cexList "df_it" = some cexIt ∧ unpack cexList "df_ic" = some cexIc ∧
    merge_data cexList = some cexOut ∧
    cexOut.rows.length ≠ cexSl.rows.length := by decide

/-- Claim C1, witness: the amended theorem applied to the duplicate-free run
`wList`. -/
theorem merge_data_left_cardinality_witness : wOut.rows.length = wSl.rows.length :=
  merge_data_left_cardinality wList wSl wIt wIc (by decide) (by decide) (by decide)
    (by decide) 0 (by decide) (by decide) 0 (by decide) (by decide) wOut (by decide)

/-- Claim C2: for EVERY input list carrying the three expected names,
`merge_data` is exactly the composition left-join of items with categories on
`item_category_id`, then left-join of the sales log with that result on
`item_id`, then conversion of the `date` column (first conjunct, with no
hypothesis beyond the three names); and for end-to-end inputs whose columns
are `{item_id, date, qty}`, `{item_id, item_category_id}`,
`{item_category_id, name}` (rectangular sales rows, parseable dates) it
succeeds with output columns exactly
`{item_id, date, qty, item_category_id, name}`, in that order. -/
theorem merge_data_steps_and_columns (l : List NamedDf) (sl it ic : Table)
    (hsl : unpack l "df_sl" = some sl) (hit : unpack l "df_it" = some it)
    (hic : unpack l "df_ic" = some ic) :
    merge_data l = (pdMerge it ic "item_category_id").bind (fun df1 =>
      (pdMerge sl df1 "item_id").bind set_to_datetime) ∧
    (sl.cols = ["item_id", "date", "qty"] →
     it.cols = ["item_id", "item_category_id"] →
     ic.cols = ["item_category_id", "name"] →
     (∀ r ∈ sl.rows, r.length = sl.cols.length) →
     (∀ r ∈ sl.rows, (pd_to_datetime (cellAt r 1)).isSome) →
     ∃ t, merge_data l = some t ∧
       t.cols = ["item_id", "date", "qty", "item_category_id", "name"]) := by
  have hstep := merge_data_unfold l sl it ic hsl hit hic
  refine ⟨hstep, ?_⟩
  intro hcs hci hcc hwf hd
  have hm1 := pdMerge_eq_of_idx it ic "item_category_id" 1 0
    (by rw [hci]; decide) (by rw [hcc]; decide)
  have hcols1 : it.cols.map (mergeRenameLeft "item_category_id" ic.cols) ++
      (ic.cols.eraseIdx 0).map (mergeRenameRight it.cols) =
      ["item_id", "item_category_id", "name"] := by
    rw [hci, hcc]
    decide
  rw [hcols1] at hm1
  have hm2 := pdMerge_mk_right sl ["item_id", "item_category_id", "name"]
    (it.rows.flatMap (mergeRowsFor ic.rows ic.cols.length 1 0)) "item_id" 0 0
    (by rw [hcs]; decide) (by decide)
  have hcols2 : sl.cols.map
        (mergeRenameLeft "item_id" ["item_id", "item_category_id", "name"]) ++
      ((["item_id", "item_category_id", "name"] : List String).eraseIdx 0).map
        (mergeRenameRight sl.cols) =
      ["item_id", "date", "qty", "item_category_id", "name"] := by
    rw [hcs]
    decide
  rw [hcols2] at hm2
  have hd2 : ∀ r ∈ sl.rows.flatMap (mergeRowsFor
      (it.rows.flatMap (mergeRowsFor ic.rows ic.cols.length 1 0))
      (["item_id", "item_category_id", "name"] : List String).length 0 0),
      (pd_to_datetime (cellAt r 1)).isSome := by
    intro r hr
    obtain ⟨lr, hlr, hF⟩ := List.mem_flatMap.mp hr
    obtain ⟨rest, hrest⟩ := mergeRowsFor_shape _ _ _ _ _ r hF
    have h1 : 1 < lr.length := by
      rw [hwf lr hlr, hcs]
      decide
    rw [hrest, cellAt_append_left lr rest 1 h1]
    exact hd lr hlr
  obtain ⟨rows2, hrows2⟩ := mapM_isSome
    (fun r => (pd_to_datetime (cellAt r 1)).map (fun v => r.set 1 v)) _
    (fun r hr => by
      show ((pd_to_datetime (cellAt r 1)).map (fun v => r.set 1 v)).isSome = true
      have h3 := hd2 r hr
      cases hx : pd_to_datetime (cellAt r 1) with
      | none => rw [hx] at h3; exact absurd h3 (by decide)
      | some v => rfl)
  have hdt := set_to_datetime_mk ["item_id", "date", "qty", "item_category_id", "name"]
    _ rows2 1 (by decide) hrows2
  refine ⟨⟨["item_id", "date", "qty", "item_category_id", "name"], rows2⟩, ?_, rfl⟩
  rw [hstep, hm1, Option.some_bind, hm2, Option.some_bind, hdt]

/-- Claim C2, witness: the theorem instantiated at the end-to-end run
`wList`, together with a concrete evaluation showing the end-to-end conjunct
is not vacuous there (`merge_data` really succeeds on `wList`). -/
theorem merge_data_steps_and_columns_witness :
    ((merge_data wList = (pdMerge wIt wIc "item_category_id").bind (fun df1 =>
      (pdMerge wSl df1 "item_id").bind set_to_datetime)) ∧
     (wSl.cols = ["item_id", "date", "qty"] →
      wIt.cols = ["item_id", "item_category_id"] →
      wIc.cols = ["item_category_id", "name"] →
      (∀ r ∈ wSl.rows, r.length = wSl.cols.length) →
      (∀ r ∈ wSl.rows, (pd_to_datetime (cellAt r 1)).isSome) →
      ∃ t, merge_data wList = some t ∧
        t.cols = ["item_id", "date", "qty", "item_category_id", "name"])) ∧
    merge_data wList = some wOut :=
  ⟨merge_data_steps_and_columns wList wSl wIt wIc (by decide) (by decide) (by decide),
   by decide⟩

/-- Claim C3: when any of the three expected logical names (`df_sl`, `df_it`,
`df_ic`) occurs in no entry of the input list, `merge_data` fails — the Python
`NameError` raised at the join that reads the unbound variable, modelled as
`none` — and never returns an output table. -/
theorem merge_data_missing_name (l : List NamedDf)
    (h : (∀ e ∈ l, e.df_name ≠ "df_sl") ∨ (∀ e ∈ l, e.df_name ≠ "df_it") ∨
      (∀ e ∈ l, e.df_name ≠ "df_ic")) :
    merge_data l = none := by
  rcases h with h | h | h
  · have hn := unpack_eq_none l "df_sl" h
    rw [merge_data, hn]
    cases unpack l "df_it" with
    | none => rfl
    | some a =>
        cases unpack l "df_ic" with
        | none => rfl
        | some b =>
            show (match pdMerge a b "item_category_id" with
              | none => none
              | some df1 =>
                  match (none : Option Table) with
                  | none => none
                  | some df_sl =>
                      match pdMerge df_sl df1 "item_id" with
                      | none => none
                      | some df2 => set_to_datetime df2) = none
            cases pdMerge a b "item_category_id" with
            | none => rfl
            | some df1 => rfl
  · have hn := unpack_eq_none l "df_it" h
    rw [merge_data, hn]
  · have hn := unpack_eq_none l "df_ic" h
    rw [merge_data, hn]
    cases unpack l "df_it" with
    | none => rfl
    | some a => rfl

/-- Claim C3, witness: dropping the sales-log entry makes `merge_data` fail. -/
theorem merge_data_missing_name_witness :
    merge_data [⟨"df_it", wIt⟩, ⟨"df_ic", wIc⟩] = none :=
  merge_data_missing_name [⟨"df_it", wIt⟩, ⟨"df_ic", wIc⟩] (Or.inl (by decide))

/-- Claim C4: `import_gcs_data` pairs the descriptor's logical name with the
table read from the composed URI `gcs://<bucket>/<folder>/<filename>`; the
returned table keeps the source's columns, holds no two identical rows, and a
row appears in it exactly when it appears in the source (so every distinct
source row survives with all its cell values unchanged). -/
theorem import_gcs_data_dedup (gcsRead : String → Table) (d : ImportData) :
    (import_gcs_data gcsRead d).df_name = d.df_name ∧
    (import_gcs_data gcsRead d).df.cols = (gcsRead (gcsImportUri d)).cols ∧
    (import_gcs_data gcsRead d).df.rows.Nodup ∧
    (∀ r : List Value, r ∈ (import_gcs_data gcsRead d).df.rows ↔
      r ∈ (gcsRead (gcsImportUri d)).rows) := by
  refine ⟨rfl, rfl, nodup_dropDupsFrom _ [], ?_⟩
  intro r
  show r ∈ dropDupsFrom [] (gcsRead (gcsImportUri d)).rows ↔ _
  rw [mem_dropDupsFrom]
  simp

/-- Claim C5: when both writes go through, `export_data_gcs` performs the
cloud write first and the local write second — the log lists them in that
order — and returns the input table itself, unchanged. -/
theorem export_data_gcs_passthrough (writeOk : String → String → Bool) (df : Table)
    (e : ExportData)
    (h1 : writeOk (gcsExportUri e) (to_csv df false) = true)
    (h2 : writeOk (localExportPath e) (to_csv df false) = true) :
    export_data_gcs writeOk df e = (some df,
      [(gcsExportUri e, to_csv df false), (localExportPath e, to_csv df false)]) := by
  simp only [export_data_gcs, h1, h2, if_true]

/-- Claim C5, witness. -/
theorem export_data_gcs_passthrough_witness :
    export_data_gcs (fun _ _ => true) wSl wExport = (some wSl,
      [(gcsExportUri wExport, to_csv wSl false),
       (localExportPath wExport, to_csv wSl false)]) :=
  export_data_gcs_passthrough (fun _ _ => true) wSl wExport rfl rfl

/-- Claim C6: the CSV text `export_data_gcs` writes to the cloud destination
is the very string it writes to the local destination — both are the one
serialization `to_csv df false` of the input table, with the row index
omitted. -/
theorem export_data_gcs_same_content (writeOk : String → String → Bool) (df : Table)
    (e : ExportData)
    (h1 : writeOk (gcsExportUri e) (to_csv df false) = true)
    (h2 : writeOk (localExportPath e) (to_csv df false) = true) :
    (export_data_gcs writeOk df e).2.map Prod.snd =
      [to_csv df false, to_csv df false] := by
  simp only [export_data_gcs, h1, h2, if_true]
  rfl

/-- Claim C6, witness. -/
theorem export_data_gcs_same_content_witness :
    (export_data_gcs (fun _ _ => true) wSl wExport).2.map Prod.snd =
      [to_csv wSl false, to_csv wSl false] :=
  export_data_gcs_same_content (fun _ _ => true) wSl wExport rfl rfl

/-- Claim C7: on every successful run, each output row comes from a sales-log
row `lr`; its `date` cell is exactly the parsed form of the text `lr` held in
the sales log's `date` column, and every other cell of `lr` is carried over
unchanged (the output row is `lr` with only position `j` rewritten, extended
by the joined right-hand cells). -/
theorem merge_data_date_column (l : List NamedDf) (sl : Table)
    (hsl : unpack l "df_sl" = some sl)
    (hwf : ∀ r ∈ sl.rows, r.length = sl.cols.length)
    (j : Nat) (hj : colIdx? sl.cols "date" = some j)
    (t : Table) (ht : merge_data l = some t) :
    ∀ row ∈ t.rows, ∃ lr, lr ∈ sl.rows ∧
      ∃ v, pd_to_datetime (cellAt lr j) = some v ∧ cellAt row j = v ∧
        ∃ rest, row = lr.set j v ++ rest := by
  obtain ⟨sl2, it, ic, df1, df2, hit2, hic2, hm1, hsl2, hm2, hdt⟩ :=
    merge_data_some_elim l t ht
  rw [hsl] at hsl2
  injection hsl2 with hsl2
  subst hsl2
  obtain ⟨li2, ri2, hli2, hri2, hc2, hr2⟩ := pdMerge_some_elim sl df1 _ df2 hm2
  obtain ⟨i, rows2, hi, hmapm, hcols, hrows⟩ := set_to_datetime_some_elim df2 t hdt
  have hmem_sl : "date" ∈ sl.cols := colIdx?_mem _ _ _ hj
  have hd_notmem : "date" ∉ df1.cols := by
    intro hmem
    have hnone := colIdx?_merged_none sl.cols df1.cols "item_id" "date" ri2
      (fun c => suffix_x_ne c _ (by decide)) (fun c => suffix_y_ne c _ (by decide))
      hmem_sl hmem (by decide)
    rw [← hc2] at hnone
    rw [hnone] at hi
    exact Option.noConfusion hi
  have hidx : colIdx? df2.cols "date" = some j := by
    rw [hc2]
    exact colIdx?_merged_left sl.cols df1.cols "item_id" "date" ri2 j
      (fun c => suffix_x_ne c _ (by decide)) (Or.inl hd_notmem) hj
  rw [hidx] at hi
  injection hi with hi
  subst hi
  have hjlt : j < sl.cols.length := colIdx?_lt_length _ _ _ hj
  intro row hrow
  rw [hrows] at hrow
  obtain ⟨r0, hr0mem, hr0⟩ := mapM_some_mem _ _ _ hmapm row hrow
  rw [hr2] at hr0mem
  obtain ⟨lr, hlr, hrF⟩ := List.mem_flatMap.mp hr0mem
  obtain ⟨rest0, hrest0⟩ := mergeRowsFor_shape _ _ _ _ _ r0 hrF
  cases hv : pd_to_datetime (cellAt r0 j) with
  | none => rw [hv] at hr0; exact Option.noConfusion hr0
  | some v =>
      rw [hv, Option.map_some'] at hr0
      injection hr0 with hr0
      have hjlr : j < lr.length := by rw [hwf lr hlr]; exact hjlt
      have hcell : cellAt r0 j = cellAt lr j := by
        rw [hrest0]
        exact cellAt_append_left lr rest0 j hjlr
      refine ⟨lr, hlr, v, by rw [← hcell]; exact hv, ?_, rest0, ?_⟩
      · rw [← hr0]
        have hjr0 : j < r0.length := by
          rw [hrest0, List.length_append]
          exact Nat.lt_of_lt_of_le hjlr (Nat.le_add_right _ _)
        exact cellAt_set_self r0 j v hjr0
      · rw [← hr0, hrest0, set_append_left lr rest0 j v hjlr]

/-- Claim C7, witness: the run on `wList`, whose two output rows both carry
parsed dates at the `date` position. -/
theorem merge_data_date_column_witness :
    (∀ row ∈ wOut.rows, ∃ lr, lr ∈ wSl.rows ∧
      ∃ v, pd_to_datetime (cellAt lr 1) = some v ∧ cellAt row 1 = v ∧
        ∃ rest, row = lr.set 1 v ++ rest) ∧ wOut.rows ≠ [] :=
  ⟨merge_data_date_column wList wSl (by decide) (by decide) 1 (by decide) wOut
    (by decide), by decide⟩

/-- Claim C8: no transactionality between the two writes — when the cloud
write succeeds and the local write fails, `export_data_gcs` propagates the
error (returns nothing), the write log holds exactly the cloud copy, no local
write happened, and nothing is rolled back or compensated. -/
theorem export_data_gcs_no_rollback (writeOk : String → String → Bool) (df : Table)
    (e : ExportData)
    (h1 : writeOk (gcsExportUri e) (to_csv df false) = true)
    (h2 : writeOk (localExportPath e) (to_csv df false) = false) :
    export_data_gcs writeOk df e = (none, [(gcsExportUri e, to_csv df false)]) := by
  simp [export_data_gcs, h1, h2]

/-- Claim C8, witness: an oracle under which only the cloud destination is
writable. -/
theorem export_data_gcs_no_rollback_witness :
    export_data_gcs (fun s _ => s == gcsExportUri wExport) wSl wExport =
      (none, [(gcsExportUri wExport, to_csv wSl false)]) :=
  export_data_gcs_no_rollback (fun s _ => s == gcsExportUri wExport) wSl wExport
    (by decide) (by decide)

/-- Claim C9: `merge_data` ignores entries whose name is none of `df_sl`,
`df_it`, `df_ic` — filtering the list down to those names leaves the result
unchanged — and for each expected name the unpacking loop binds the table of
the LAST entry of that name in list order (earlier occurrences are
overwritten). -/
theorem merge_data_name_dispatch (l : List NamedDf) :
    merge_data l = merge_data (l.filter (fun e =>
      decide (e.df_name = "df_sl" ∨ e.df_name = "df_it" ∨ e.df_name = "df_ic"))) ∧
    unpack l "df_sl" =
      (l.filterMap (fun e => if e.df_name = "df_sl" then some e.df else none)).getLast? ∧
    unpack l "df_it" =
      (l.filterMap (fun e => if e.df_name = "df_it" then some e.df else none)).getLast? ∧
    unpack l "df_ic" =
      (l.filterMap (fun e => if e.df_name = "df_ic" then some e.df else none)).getLast? := by
  refine ⟨?_, unpack_getLast l "df_sl", unpack_getLast l "df_it", unpack_getLast l "df_ic"⟩
  apply merge_data_congr
  · exact (unpack_filter l _ "df_sl" (fun e he => by rw [he]; decide)).symm
  · exact (unpack_filter l _ "df_it" (fun e he => by rw [he]; decide)).symm
  · exact (unpack_filter l _ "df_ic" (fun e he => by rw [he]; decide)).symm

/-- Claim C10: `merge_data` mutates none of the tables its input list refers
to: at the heap level every pre-existing cell — in particular every table of
`df_list` — reads the same after the run as before (the function works on
`.copy()`-ed and freshly allocated frames only). -/
theorem merge_data_heap_frame (h0 : Heap) (dfList : List NamedRef) (i : Nat)
    (hi : i < h0.length) :
    (merge_data_heap h0 dfList).1[i]? = h0[i]? :=
  (merge_data_heap_grows h0 dfList).2 i hi

/-- Claim C10, witness: a full successful run over a three-table heap leaves
cell 0 (the sales log) unchanged. -/
theorem merge_data_heap_frame_witness :
    (merge_data_heap [wSl, wIt, wIc]
      [⟨"df_sl", 0⟩, ⟨"df_it", 1⟩, ⟨"df_ic", 2⟩]).1[0]? =
      ([wSl, wIt, wIc] : Heap)[0]? :=
  merge_data_heap_frame [wSl, wIt, wIc] [⟨"df_sl", 0⟩, ⟨"df_it", 1⟩, ⟨"df_ic", 2⟩] 0
    (by decide)
